import Mathlib

/-!
Shallow embedding of `src/systems/local.go` (package `systems`) of the Amass
repository, together with proofs about the embedded operations.

Conventions:
* Resolver handles, cayley connections and graph handles are identified by
  natural numbers; the externally supplied collaborator results (probe
  outcomes, constructor successes) are parameters of the embedded functions.
* A Go operation that can block forever or panic is embedded as a function
  into `Option`, where `none` marks the blocked / panicking execution.
* Machine integers of the source are embedded as `Nat`; every value involved
  (list lengths, rates, budgets, file-descriptor limits) is non-negative in
  the source.
-/

/-! ## Resolver prober: `setupResolvers` (src/systems/local.go:326-365)

Each candidate address gets a goroutine that performs
`resolvers.ClientSubnetCheck` and, on success, `resolvers.NewBaseResolver`;
the combined external outcome for one address is `Option Nat`
(`some handle` when both succeed, `none` otherwise). -/

/-- Messages one probe goroutine sends on the `finished` channel, exactly as
written in the source (lines 337-344): on a successful probe it sends the
handle (`ch <- n`) and then falls through to `ch <- nil`, so it sends two
messages; on a failed probe it sends only `nil`. -/
def probeSends (outcome : Option Nat) : List (Option Nat) :=
  match outcome with
  | some n => [some n, none]
  | none => [none]

/-- One valid interleaving of the probe goroutines' sends on the shared
channel: each goroutine runs to completion before the next one starts. -/
def seqTrace (outcomes : List (Option Nat)) : List (Option Nat) :=
  (outcomes.map probeSends).flatten

/-- Number of messages sent on the `finished` channel under the sequential
schedule (any schedule sends the same multiset, hence the same count). -/
def sendCount (outcomes : List (Option Nat)) : Nat :=
  (seqTrace outcomes).length

/-- Number of messages the drain loop of `setupResolvers` receives from the
channel: exactly one per candidate address (lines 347-350, `l := len(addrs)`
iterations). -/
def readCount (outcomes : List (Option Nat)) : Nat :=
  outcomes.length

/-- The drain loop of `setupResolvers` (lines 347-359), reading from the
message trace: the first `Nat` argument after the trace is the remaining
number of reads, the second is `count`. Returns the accepted handles and the
explicitly stopped handles. -/
def drainGo (max : Nat) : List (Option Nat) → Nat → Nat → List Nat × List Nat
  | _, 0, _ => ([], [])
  | [], _ + 1, _ => ([], [])
  | some r :: rest, i + 1, count =>
    if count < max then
      let p := drainGo max rest i (count + 1)
      (r :: p.1, p.2)
    else
      let p := drainGo max rest i count
      (p.1, r :: p.2)
  | none :: rest, i + 1, count => drainGo max rest i count

/-- The whole drain phase: read `l` messages with `count` starting at 0. -/
def drainLoop (trace : List (Option Nat)) (l max : Nat) : List Nat × List Nat :=
  drainGo max trace l 0

/-- The observable result of `setupResolvers` on a list of probe outcomes
under the sequential schedule: accepted handles and stopped handles. -/
def setupResolvers (outcomes : List (Option Nat)) (max : Nat) : List Nat × List Nat :=
  drainLoop (seqTrace outcomes) outcomes.length max

/-! ## Output directory: `setupOutputDirectory` (lines 180-193) -/

/-- Embedding of `setupOutputDirectory`: `path` is the result of
`config.OutputDirectory` (empty string when unset) and `mkdirFails` tells
whether `os.MkdirAll` returns a non-nil error. The source returns `nil` in
all three branches, including the `err != nil` branch (line 189). -/
def setupOutputDirectory (path : String) (mkdirFails : Bool) : Option String :=
  if path = "" then none
  else if mkdirFails then none
  else none

/-! ## Trusted-list pool builder: `customResolverSetup` (lines 278-299) -/

/-- The value `num` computed at lines 279-282: the number of configured
trusted resolvers, capped at `max`. -/
def customNum (resolversCfg : List String) (max : Nat) : Nat :=
  min resolversCfg.length max

/-- The query budget after the write-back at lines 284-288: derived as
`num * DefaultQueriesPerBaselineResolver` when unset (`0`), raised to `num`
when smaller than `num`, otherwise kept. -/
def adjustBudget (budget num defaultRate : Nat) : Nat :=
  if budget = 0 then num * defaultRate
  else if budget < num then num
  else budget

/-- The per-resolver rate `cfg.MaxDNSQueries / num` of line 290 (meaningful
only when `customNum ... ≠ 0`; at `0` the Go division panics). -/
def customRate (resolversCfg : List String) (max budget defaultRate : Nat) : Nat :=
  adjustBudget budget (customNum resolversCfg max) defaultRate / customNum resolversCfg max

/-- Embedding of `customResolverSetup`. `newBase` tells for which addresses
`resolvers.NewBaseResolver` succeeds. The result is the adjusted budget
together with the trusted resolver list, each with its rate; `none` embeds
the run-time panic of the integer division by zero at line 290 when
`num = 0`. -/
def customResolverSetup (resolversCfg : List String) (max budget defaultRate : Nat)
    (newBase : String → Bool) : Option (Nat × List (String × Nat)) :=
  let num := customNum resolversCfg max
  let b := adjustBudget budget num defaultRate
  if num = 0 then none
  else
    some (b, resolversCfg.filterMap fun a =>
      if newBase a then some (a, b / num) else none)

/-- A `NewBaseResolver` stand-in that succeeds on every address. -/
def nbAll : String → Bool := fun _ => true

/-- The trusted resolver list built by the loop at lines 291-296: one handle
per address on which `NewBaseResolver` succeeds, each at the computed rate. -/
def customTrusted (resolversCfg : List String) (max budget defaultRate : Nat)
    (newBase : String → Bool) : List (String × Nat) :=
  resolversCfg.filterMap fun a =>
    if newBase a then some (a, customRate resolversCfg max budget defaultRate) else none

/-! ## Data source registry: `manageDataSources` (lines 233-249)

Data sources are identified by their `String()` name, which is all the
registry's ordering contract observes. -/

/-- Embedding of `sort.Slice(dataSources, ...)` at lines 242-244 with the
ascending name comparator: Mathlib's insertion sort with `≤` on `String`,
which produces an ascending reordering just as `sort.Slice` with `<` does. -/
def sortNames (l : List String) : List String :=
  l.insertionSort (fun a b => a ≤ b)

/-- The three kinds of messages the registry actor's `select` serves:
`l.done`, `l.addSource` and `l.allSources`. -/
inductive RegMsg where
  | add (name : String)
  | query
deriving DecidableEq

/-- One step of the actor loop on its private `dataSources` list: an `add`
appends the new source and re-sorts (lines 240-244); a `query` leaves the
list unchanged (lines 245-246, it only sends the snapshot back). -/
def regStep (st : List String) : RegMsg → List String
  | RegMsg.add s => sortNames (st ++ [s])
  | RegMsg.query => st

/-- The actor state after processing a message sequence, starting from the
empty list of line 234; a query arriving at that point receives exactly this
state. -/
def regRun (msgs : List RegMsg) : List String :=
  msgs.foldl regStep []

/-- Tells whether a registry message is an `add`. -/
def isAdd : RegMsg → Bool
  | RegMsg.add _ => true
  | RegMsg.query => false

/-- Ascending-sortedness of a name list, with duplicates allowed. -/
def sortedAsc : List String → Prop
  | [] => True
  | [_] => True
  | x :: y :: rest => x ≤ y ∧ sortedAsc (y :: rest)

/-! ## System state, `Shutdown` and `NewLocalSystem` (lines 26-82, 151-168)

The embedded state keeps the fields of `LocalSystem` the claims observe,
plus a log of the teardown actions performed, so that "stopped twice" is
expressible. `actorRunning` records whether `go sys.manageDataSources()`
(line 80) has happened; it is what decides whether the round-trip in
`DataSources` (lines 116-121) gets an answer. -/

/-- The teardown actions performed by `Shutdown`. -/
inductive TearAct where
  | stopSource (name : String)
  | closeDone
  | closeGraph (g : Nat)
  | stopPool
deriving DecidableEq

/-- The observable state of a `LocalSystem`. -/
structure Sys where
  actorRunning : Bool
  doneAlreadyClosed : Bool
  sources : List String
  graphs : List Nat
  log : List TearAct
deriving DecidableEq

/-- Embedding of `DataSources` (lines 116-121): the caller sends a reply
channel to the actor and blocks on the answer; when the actor goroutine is
not running, nothing ever serves `allSources`, so the receive blocks forever
(`none`). -/
def DataSources (s : Sys) : Option (List String) :=
  if s.actorRunning then some s.sources else none

/-- The state after the teardown of a first `Shutdown` call: flag set, every
registered source stopped, done closed (which terminates the actor loop),
every graph closed, the pool stopped, in source order (lines 155-167). -/
def afterShutdown (s : Sys) : Sys :=
  { s with
    doneAlreadyClosed := true
    actorRunning := false
    log := s.log ++ s.sources.map TearAct.stopSource ++ [TearAct.closeDone]
      ++ s.graphs.map TearAct.closeGraph ++ [TearAct.stopPool] }

/-- Embedding of `Shutdown` (lines 151-168). The outer `none` embeds a call
that blocks forever; a `some (s1, e)` is a call returning error `e` (always
`nil` in the source) with post-state `s1`. The first call sets the flag and
then iterates over `l.DataSources()`, which blocks when the actor is not
running. -/
def Shutdown (s : Sys) : Option (Sys × Option String) :=
  if s.doneAlreadyClosed then some (s, none)
  else
    match DataSources { s with doneAlreadyClosed := true } with
    | none => none
    | some _ => some (afterShutdown s, none)

/-! ## Graph backends: `setupGraphDBs` (lines 196-223) -/

/-- A database configuration entry (`config.Database`): the fields the
embedded code reads. -/
structure DBConf where
  system : String
  url : String
deriving DecidableEq

/-- Modelled from the spec: the graph wrapper capability `describe() ->
string` (`graph.Graph.String`, not under `src/`) reports the name of the
wrapper's backend, so it needs the wrapper itself; invoked on the absent
(`nil`) wrapper it dereferences nil and panics (`none`). -/
def graphDescribe (g : Option Nat) : Option String :=
  g.map fun n => toString n

/-- Inner loop of `setupGraphDBs` over the database entries (lines 205-220).
`newCayley` and `newGraph` are the external constructors
(`graph.NewCayleyGraph`, `graph.NewGraph`), `none` meaning the constructor
returned `nil`. The result is `none` when the loop panics, otherwise the
error or the list of graph handles built. Note the `nil`-wrapper branch
(lines 212-214): the error text is built from `g.String()` with `g = nil`. -/
def setupGraphDBsGo (newCayley : DBConf → Option Nat) (newGraph : Nat → Option Nat)
    (acc : List Nat) : List DBConf → Option (Except String (List Nat))
  | [] => some (Except.ok acc)
  | db :: rest =>
    match newCayley db with
    | none => some (Except.error ("System: Failed to create the " ++ db.system ++ " graph"))
    | some c =>
      match newGraph c with
      | none =>
        match graphDescribe none with
        | none => none
        | some name =>
          some (Except.error ("System: Failed to create the " ++ name ++ " graph"))
      | some g => setupGraphDBsGo newCayley newGraph (acc ++ [g]) rest

/-- Embedding of `setupGraphDBs`: `dbs` is the combined list (local default
database prepended to `cfg.GraphDBs`). -/
def setupGraphDBs (dbs : List DBConf) (newCayley : DBConf → Option Nat)
    (newGraph : Nat → Option Nat) : Option (Except String (List Nat)) :=
  setupGraphDBsGo newCayley newGraph [] dbs

/-! ## ASN cache loader: `loadCacheData` (lines 251-276)

IPv4 addresses are embedded as natural numbers below `2 ^ 32`. -/

/-- One record of the fetched IP-range dataset (`config.GetIP2ASNData`). -/
structure IPRange where
  firstIP : Nat
  lastIP : Nat
  asn : Nat
  cc : String
  description : String
deriving DecidableEq

/-- Number of addresses in a CIDR block of the given mask length. -/
def blockSize (ones : Nat) : Nat := 2 ^ (32 - ones)

/-- Base address of the CIDR block of the given mask length containing `ip`. -/
def blockBase (ip ones : Nat) : Nat := ip / blockSize ones * blockSize ones

/-- Last address of the CIDR block of the given mask length containing `ip`. -/
def blockEnd (ip ones : Nat) : Nat := blockBase ip ones + blockSize ones - 1

/-- Largest mask length `≤ fuel` whose block containing `first` still reaches
`last`; blocks containing `first` are nested, so this block is the smallest
one spanning `[first, last]`. -/
def spanOnes (first last : Nat) : Nat → Nat
  | 0 => 0
  | n + 1 => if last ≤ blockEnd first (n + 1) then n + 1 else spanOnes first last n

/-- Modelled from the spec: `amassnet.Range2CIDR` is not under `src/`. Per
the spec it derives the smallest CIDR block spanning `[first IP, last IP]`,
and a range that cannot be expressed as a CIDR (a reversed range) yields
nothing. The result is the pair (mask length, base address). -/
def range2CIDR (first last : Nat) : Option (Nat × Nat) :=
  if last < first then none
  else some (spanOnes first last 32, blockBase first (spanOnes first last 32))

/-- One stored ASN cache entry (the `requests.ASNRequest` built at lines
266-272, with the prefix kept as mask length and base). -/
structure CacheEntry where
  address : Nat
  asn : Nat
  cc : String
  prefixOnes : Nat
  prefixBase : Nat
  description : String
deriving DecidableEq

/-- The body of the loop at lines 257-273 for one record: `none` when the
record is skipped (no CIDR, or mask length 0), otherwise the entry passed to
`cache.Update`. -/
def processRecord (r : IPRange) : Option CacheEntry :=
  match range2CIDR r.firstIP r.lastIP with
  | none => none
  | some (ones, base) =>
    if ones = 0 then none
    else some { address := r.firstIP, asn := r.asn, cc := r.cc,
                prefixOnes := ones, prefixBase := base, description := r.description }

/-- Modelled from the spec: `amassnet.ASNCache.Update` is not under `src/`.
Per the spec each remaining record is upserted into the cache keyed by its
CIDR: an entry with the same prefix is replaced, otherwise the entry is
appended. -/
def cacheUpdate (cache : List CacheEntry) (e : CacheEntry) : List CacheEntry :=
  if cache.any (fun x => x.prefixOnes == e.prefixOnes && x.prefixBase == e.prefixBase) then
    cache.map fun x =>
      if x.prefixOnes == e.prefixOnes && x.prefixBase == e.prefixBase then e else x
  else cache ++ [e]

/-- One iteration of the loop at lines 257-273: skip the record (`continue`)
or upsert the entry built from it. -/
def loadStep (cache : List CacheEntry) (r : IPRange) : List CacheEntry :=
  match processRecord r with
  | none => cache
  | some e => cacheUpdate cache e

/-- The cache contents after the loop of `loadCacheData` over the fetched
records (the fetch itself either fails, aborting construction, or yields
this record list). -/
def loadCacheData (ranges : List IPRange) : List CacheEntry :=
  ranges.foldl loadStep []

/-- The prefix key of an entry with the given mask length and base is
present in the cache. -/
def hasKey (cache : List CacheEntry) (ones base : Nat) : Prop :=
  ∃ x, x ∈ cache ∧ x.prefixOnes = ones ∧ x.prefixBase = base

/-! ## Construction: `NewLocalSystem` (lines 38-82) -/

/-- The external inputs `NewLocalSystem` consumes: the configuration
validation result, whether pool composition yields a pool, the dataset fetch
result, the output directory inputs, and the graph constructor results. -/
structure BuildEnv where
  checkSettingsErr : Option String
  poolBuilt : Bool
  ip2asnData : Except String (List IPRange)
  outputPath : String
  mkdirFails : Bool
  dbs : List DBConf
  newCayley : DBConf → Option Nat
  newGraph : Nat → Option Nat

/-- The `LocalSystem` value of lines 55-62, before `go sys.manageDataSources()`
has run: the actor is not running yet. -/
def freshSys : Sys :=
  { actorRunning := false, doneAlreadyClosed := false,
    sources := [], graphs := [], log := [] }

/-- Embedding of `NewLocalSystem` (lines 38-82). The outer `none` embeds a
construction that never returns (a blocked `Shutdown` call or a panic);
otherwise the result is the constructed system or the error returned. The
actor goroutine is started only after every step has succeeded (line 80). -/
def NewLocalSystem (env : BuildEnv) : Option (Except String Sys) :=
  match env.checkSettingsErr with
  | some e => some (Except.error e)
  | none =>
    if !env.poolBuilt then
      some (Except.error "The system was unable to build the pool of resolvers")
    else
      match env.ip2asnData with
      | Except.error e =>
        match Shutdown freshSys with
        | none => none
        | some _ => some (Except.error e)
      | Except.ok _ =>
        match setupOutputDirectory env.outputPath env.mkdirFails with
        | some e =>
          match Shutdown freshSys with
          | none => none
          | some _ => some (Except.error e)
        | none =>
          match setupGraphDBs env.dbs env.newCayley env.newGraph with
          | none => none
          | some (Except.error e) =>
            match Shutdown { freshSys with graphs := [] } with
            | none => none
            | some _ => some (Except.error e)
          | some (Except.ok gs) =>
            some (Except.ok { freshSys with graphs := gs, actorRunning := true })

/-! ## Helper lemmas -/

lemma sendCount_eq (outcomes : List (Option Nat)) :
    sendCount outcomes = readCount outcomes + outcomes.countP (fun o => o.isSome) := by
  induction outcomes with
  | nil => rfl
  | cons hd tl ih =>
    cases hd <;>
      simp [sendCount, readCount, seqTrace, probeSends, List.countP_cons] at * <;>
      omega

lemma drainGo_length_le (max : Nat) :
    ∀ (trace : List (Option Nat)) (i count : Nat),
      (drainGo max trace i count).1.length ≤ max - count := by
  intro trace
  induction trace with
  | nil => intro i count; cases i <;> simp [drainGo]
  | cons hd tl ih =>
    intro i count
    cases i with
    | zero => simp [drainGo]
    | succ n =>
      cases hd with
      | none => simpa [drainGo] using ih n count
      | some r =>
        by_cases h : count < max
        · have hb := ih n (count + 1)
          simp [drainGo, h]
          omega
        · have hb := ih n count
          simp [drainGo, h]
          omega

/-! ## Claim theorems: prober send/read protocol -/

/-- C1: each spawned probe is supposed to report exactly one outcome on the
shared results channel while the caller drains one outcome per probe. In the
source a successful probe sends two messages (the handle, then nil), so the
number of messages sent is the candidate count plus the number of successes:
with one successful probe, 2 messages are sent but only 1 is drained, and
the extra senders beyond the channel buffer block forever. -/
theorem setupResolvers_sends_exceed_reads :
    (∀ outcomes, sendCount outcomes
      = readCount outcomes + outcomes.countP (fun o => o.isSome)) ∧
    sendCount [some 7] = 2 ∧ readCount [some 7] = 1 :=
  ⟨sendCount_eq, rfl, rfl⟩

/-- C4: the number of accepted resolvers never exceeds `max` (first
conjunct), but the release-excess-handles half of the claim fails: with two
successful probes and `max = 1`, under the schedule in which the first
goroutine's two sends precede the second goroutine's, the drain loop reads
`[some 1, none]`, accepts handle 1 and stops nothing, so the successful
excess handle 2 is neither accepted nor stopped — it is abandoned with its
resources live. -/
theorem setupResolvers_excess_handle_abandoned :
    (∀ trace l max, (drainLoop trace l max).1.length ≤ max) ∧
    seqTrace [some 1, some 2] = [some 1, none, some 2, none] ∧
    setupResolvers [some 1, some 2] 1 = ([1], []) := by
  refine ⟨fun trace l max => ?_, by decide, by decide⟩
  simpa using drainGo_length_le max trace l 0

/-! ## Claim theorems: construction and shutdown error paths -/

/-- C2: when a construction step after pool creation fails, `NewLocalSystem`
invokes `Shutdown`, but at that point `manageDataSources` has not been
started (it starts only after every step succeeds), so the `DataSources`
round-trip inside `Shutdown` blocks forever: with a failing ASN dataset
fetch, construction never returns the error — it deadlocks. -/
theorem newLocalSystem_error_path_blocks :
    Shutdown freshSys = none ∧
    NewLocalSystem
      { checkSettingsErr := none, poolBuilt := true,
        ip2asnData := Except.error "fetch failed", outputPath := "",
        mkdirFails := false, dbs := [], newCayley := fun _ => some 0,
        newGraph := fun _ => some 0 } = none :=
  ⟨rfl, rfl⟩

/-- C8: `setupOutputDirectory` returns nil in every branch — empty path,
successful creation, and failed creation alike — so construction never
aborts at this step. -/
theorem setupOutputDirectory_never_errs :
    ∀ (path : String) (mkdirFails : Bool),
      setupOutputDirectory path mkdirFails = none := by
  intro path mkdirFails
  simp [setupOutputDirectory]

/-- C9: when the graph wrapper constructor returns nothing, the failure
branch of `setupGraphDBs` formats its error from `g.String()` with `g` the
absent wrapper, dereferencing nil: the branch panics instead of returning
the formatted error. -/
theorem setupGraphDBs_nil_wrapper_panics :
    graphDescribe none = none ∧
    setupGraphDBs [{ system := "local", url := "u" }]
      (fun _ => some 0) (fun _ => none) = none :=
  ⟨rfl, rfl⟩

/-! ## Claim theorems: trusted-list pool builder -/

lemma customNum_pos {resolversCfg : List String} {max : Nat}
    (hne : resolversCfg ≠ []) (hmax : 1 ≤ max) : 0 < customNum resolversCfg max := by
  have hlen : 0 < resolversCfg.length := List.length_pos.mpr hne
  simp only [customNum]
  omega

lemma customResolverSetup_eq {resolversCfg : List String} {max : Nat}
    (budget defaultRate : Nat) (newBase : String → Bool)
    (hpos : 0 < customNum resolversCfg max) :
    customResolverSetup resolversCfg max budget defaultRate newBase
      = some (adjustBudget budget (customNum resolversCfg max) defaultRate,
              customTrusted resolversCfg max budget defaultRate newBase) := by
  have h0 : customNum resolversCfg max ≠ 0 := Nat.pos_iff_ne_zero.mp hpos
  simp [customResolverSetup, customTrusted, customRate, h0]

/-- C3: in trusted-list mode with `num = min(len(trusted), max)` positive,
the unset budget is derived as `num * default` and then every constructed
resolver's rate is exactly the default; a budget set below `num` is raised
to exactly `num`; and every constructed resolver's rate is the integer
quotient of the adjusted budget by `num`. -/
theorem customResolverSetup_rates (resolversCfg : List String)
    (max budget defaultRate : Nat) (newBase : String → Bool)
    (hne : resolversCfg ≠ []) (hmax : 1 ≤ max) :
    customResolverSetup resolversCfg max budget defaultRate newBase
      = some (adjustBudget budget (customNum resolversCfg max) defaultRate,
              customTrusted resolversCfg max budget defaultRate newBase) ∧
    (budget = 0 →
      adjustBudget budget (customNum resolversCfg max) defaultRate
        = customNum resolversCfg max * defaultRate ∧
      customRate resolversCfg max budget defaultRate = defaultRate) ∧
    (budget ≠ 0 → budget < customNum resolversCfg max →
      adjustBudget budget (customNum resolversCfg max) defaultRate
        = customNum resolversCfg max) ∧
    (∀ p ∈ customTrusted resolversCfg max budget defaultRate newBase,
      p.2 = customRate resolversCfg max budget defaultRate) := by
  have hpos := customNum_pos hne hmax
  refine ⟨customResolverSetup_eq budget defaultRate newBase hpos, ?_, ?_, ?_⟩
  · intro hb
    constructor
    · simp [adjustBudget, hb]
    · simp only [customRate, adjustBudget, hb, if_pos rfl]
      exact Nat.mul_div_cancel_left defaultRate hpos
  · intro hb hlt
    simp [adjustBudget, hb, hlt]
  · intro p hp
    rcases List.mem_filterMap.mp hp with ⟨a, _, hfa⟩
    by_cases hnb : newBase a = true
    · simp [hnb] at hfa
      rw [← hfa]
    · simp [hnb] at hfa

/-- Witness for C3 at a concrete input: one trusted address, `max = 1`,
unset budget, default rate 50. -/
theorem customResolverSetup_rates_witness :
    customResolverSetup ["8.8.8.8"] 1 0 50 nbAll
      = some (adjustBudget 0 (customNum ["8.8.8.8"] 1) 50,
              customTrusted ["8.8.8.8"] 1 0 50 nbAll) ∧
    customRate ["8.8.8.8"] 1 0 50 = 50 :=
  ⟨(customResolverSetup_rates ["8.8.8.8"] 1 0 50 nbAll (by decide) (by decide)).1,
   ((customResolverSetup_rates ["8.8.8.8"] 1 0 50 nbAll (by decide) (by decide)).2.1 rfl).2⟩

/-- C10 counterexample: with one configured trusted address and the
file-descriptor-derived maximum equal to zero, `num = min(1, 0) = 0` and the
rate computation `budget / num` divides by zero — the embedded run panics
(`none`), refuting "never divides by zero, including when that maximum is
zero". -/
theorem customResolverSetup_max_zero_divides_by_zero :
    customNum ["8.8.8.8"] 0 = 0 ∧
    customResolverSetup ["8.8.8.8"] 0 0 50 nbAll = none :=
  ⟨rfl, rfl⟩

/-- C10 amended: for every configuration with at least one trusted address
and a positive file-descriptor-derived maximum, `num` is positive, so the
rate computation never divides by zero and the setup completes. -/
theorem customResolverSetup_no_div_by_zero (resolversCfg : List String)
    (max budget defaultRate : Nat) (newBase : String → Bool)
    (hne : resolversCfg ≠ []) (hmax : 1 ≤ max) :
    0 < customNum resolversCfg max ∧
    customResolverSetup resolversCfg max budget defaultRate newBase
      = some (adjustBudget budget (customNum resolversCfg max) defaultRate,
              customTrusted resolversCfg max budget defaultRate newBase) := by
  have hpos := customNum_pos hne hmax
  exact ⟨hpos, customResolverSetup_eq budget defaultRate newBase hpos⟩

/-- Witness for the amended C10 at a concrete input. -/
theorem customResolverSetup_no_div_by_zero_witness :
    0 < customNum ["9.9.9.9"] 2 ∧
    customResolverSetup ["9.9.9.9"] 2 7 50 nbAll
      = some (adjustBudget 7 (customNum ["9.9.9.9"] 2) 50,
              customTrusted ["9.9.9.9"] 2 7 50 nbAll) :=
  customResolverSetup_no_div_by_zero ["9.9.9.9"] 2 7 50 nbAll (by decide) (by decide)

/-! ## Claim theorems: shutdown idempotence -/

/-- C7: on a running system (actor up, flag unset) the first `Shutdown` call
returns nil after performing the teardown actions — stopping every
registered source, closing the done signal, closing every graph, stopping
the pool, in that order — and any subsequent call returns nil with the state
(and hence the action log) unchanged: nothing is stopped or closed twice. -/
theorem shutdown_idempotent (s : Sys)
    (h1 : s.doneAlreadyClosed = false) (h2 : s.actorRunning = true) :
    Shutdown s = some (afterShutdown s, none) ∧
    (afterShutdown s).log
      = s.log ++ s.sources.map TearAct.stopSource ++ [TearAct.closeDone]
        ++ s.graphs.map TearAct.closeGraph ++ [TearAct.stopPool] ∧
    Shutdown (afterShutdown s) = some (afterShutdown s, none) := by
  refine ⟨?_, rfl, ?_⟩
  · simp [Shutdown, DataSources, h1, h2]
  · simp [Shutdown, afterShutdown]

/-- Witness for C7 at a concrete running system with one source and one
graph. -/
theorem shutdown_idempotent_witness :
    Shutdown { actorRunning := true, doneAlreadyClosed := false,
               sources := ["a"], graphs := [5], log := [] }
      = some (afterShutdown { actorRunning := true, doneAlreadyClosed := false,
                              sources := ["a"], graphs := [5], log := [] }, none) ∧
    (afterShutdown { actorRunning := true, doneAlreadyClosed := false,
                     sources := ["a"], graphs := [5], log := [] }).log
      = [] ++ [("a" : String)].map TearAct.stopSource ++ [TearAct.closeDone]
        ++ [(5 : Nat)].map TearAct.closeGraph ++ [TearAct.stopPool] ∧
    Shutdown (afterShutdown { actorRunning := true, doneAlreadyClosed := false,
                              sources := ["a"], graphs := [5], log := [] })
      = some (afterShutdown { actorRunning := true, doneAlreadyClosed := false,
                              sources := ["a"], graphs := [5], log := [] }, none) :=
  shutdown_idempotent
    { actorRunning := true, doneAlreadyClosed := false,
      sources := ["a"], graphs := [5], log := [] } rfl rfl

/-! ## Claim theorems: ASN cache loading -/

lemma processRecord_ones_pos {r : IPRange} {e : CacheEntry}
    (h : processRecord r = some e) : 0 < e.prefixOnes := by
  unfold processRecord at h
  rcases hc : range2CIDR r.firstIP r.lastIP with _ | ⟨ones, base⟩ <;> rw [hc] at h
  · exact absurd h (by simp)
  · by_cases h0 : ones = 0
    · simp [h0] at h
    · simp [h0] at h
      rw [← h]
      exact Nat.pos_of_ne_zero h0

lemma mem_cacheUpdate {cache : List CacheEntry} {e x : CacheEntry}
    (h : x ∈ cacheUpdate cache e) : x ∈ cache ∨ x = e := by
  unfold cacheUpdate at h
  by_cases hc : cache.any
      (fun y => y.prefixOnes == e.prefixOnes && y.prefixBase == e.prefixBase) = true
  · rw [if_pos hc] at h
    rcases List.mem_map.mp h with ⟨y, hy, hyx⟩
    by_cases hk : (y.prefixOnes == e.prefixOnes && y.prefixBase == e.prefixBase) = true
    · rw [if_pos hk] at hyx
      exact Or.inr hyx.symm
    · rw [if_neg hk] at hyx
      exact Or.inl (hyx ▸ hy)
  · rw [if_neg hc] at h
    rcases List.mem_append.mp h with hl | hr
    · exact Or.inl hl
    · exact Or.inr (List.mem_singleton.mp hr)

lemma hasKey_cacheUpdate_self (cache : List CacheEntry) (e : CacheEntry) :
    hasKey (cacheUpdate cache e) e.prefixOnes e.prefixBase := by
  unfold cacheUpdate
  by_cases hc : cache.any
      (fun y => y.prefixOnes == e.prefixOnes && y.prefixBase == e.prefixBase) = true
  · rw [if_pos hc]
    rcases List.any_eq_true.mp hc with ⟨y, hy, hk⟩
    refine ⟨e, ?_, rfl, rfl⟩
    exact List.mem_map.mpr ⟨y, hy, by rw [if_pos hk]⟩
  · rw [if_neg hc]
    exact ⟨e, List.mem_append.mpr (Or.inr (List.mem_singleton.mpr rfl)), rfl, rfl⟩

lemma hasKey_cacheUpdate_mono {cache : List CacheEntry} {ones base : Nat}
    (e : CacheEntry) (h : hasKey cache ones base) :
    hasKey (cacheUpdate cache e) ones base := by
  rcases h with ⟨x, hx, h1, h2⟩
  unfold cacheUpdate
  by_cases hc : cache.any
      (fun y => y.prefixOnes == e.prefixOnes && y.prefixBase == e.prefixBase) = true
  · rw [if_pos hc]
    by_cases hk : (x.prefixOnes == e.prefixOnes && x.prefixBase == e.prefixBase) = true
    · have hk2 := hk
      simp only [Bool.and_eq_true, beq_iff_eq] at hk2
      obtain ⟨k1, k2⟩ := hk2
      refine ⟨e, List.mem_map.mpr ⟨x, hx, by rw [if_pos hk]⟩, ?_, ?_⟩
      · rw [← k1, h1]
      · rw [← k2, h2]
    · exact ⟨x, List.mem_map.mpr ⟨x, hx, by rw [if_neg hk]⟩, h1, h2⟩
  · rw [if_neg hc]
    exact ⟨x, List.mem_append.mpr (Or.inl hx), h1, h2⟩

lemma hasKey_loadStep_mono {cache : List CacheEntry} {ones base : Nat}
    (r : IPRange) (h : hasKey cache ones base) :
    hasKey (loadStep cache r) ones base := by
  unfold loadStep
  rcases hp : processRecord r with _ | e
  · exact h
  · exact hasKey_cacheUpdate_mono e h

lemma hasKey_foldl_mono (ranges : List IPRange) :
    ∀ (cache : List CacheEntry) (ones base : Nat), hasKey cache ones base →
      hasKey (ranges.foldl loadStep cache) ones base := by
  induction ranges with
  | nil => intro cache ones base h; exact h
  | cons r rest ih =>
    intro cache ones base h
    exact ih (loadStep cache r) ones base (hasKey_loadStep_mono r h)

lemma foldl_provenance (ranges : List IPRange) :
    ∀ (cache : List CacheEntry) (e : CacheEntry),
      e ∈ ranges.foldl loadStep cache →
      e ∈ cache ∨ ∃ r, r ∈ ranges ∧ processRecord r = some e := by
  induction ranges with
  | nil => intro cache e h; exact Or.inl h
  | cons r rest ih =>
    intro cache e h
    rcases ih (loadStep cache r) e h with hin | ⟨r0, hr0, hp0⟩
    · unfold loadStep at hin
      rcases hp : processRecord r with _ | e0 <;> rw [hp] at hin
      · exact Or.inl hin
      · rcases mem_cacheUpdate hin with hl | he
        · exact Or.inl hl
        · exact Or.inr ⟨r, List.mem_cons_self r rest, he ▸ hp⟩
    · exact Or.inr ⟨r0, List.mem_cons_of_mem r hr0, hp0⟩

lemma foldl_upserts (ranges : List IPRange) :
    ∀ (cache : List CacheEntry) (r : IPRange) (e : CacheEntry),
      r ∈ ranges → processRecord r = some e →
      hasKey (ranges.foldl loadStep cache) e.prefixOnes e.prefixBase := by
  induction ranges with
  | nil => intro cache r e h; exact absurd h (List.not_mem_nil r)
  | cons r0 rest ih =>
    intro cache r e hmem hp
    rcases List.mem_cons.mp hmem with heq | htail
    · subst heq
      have h1 : hasKey (loadStep cache r) e.prefixOnes e.prefixBase := by
        unfold loadStep
        rw [hp]
        exact hasKey_cacheUpdate_self cache e
      exact hasKey_foldl_mono rest (loadStep cache r) e.prefixOnes e.prefixBase h1
    · exact ih (loadStep cache r0) r e htail hp

/-- C5: every entry stored by the cache load has mask length > 0; every
stored entry comes from a record that was not skipped (so skipped records —
no spanning CIDR or zero mask — are never stored); every non-skipped record
is upserted, its CIDR key present in the final cache; the concrete range
1.2.3.0-1.2.3.255 yields exactly the entry with prefix 1.2.3.0/24; and a
range degenerating to mask length 0 stores nothing. -/
theorem loadCacheData_spec :
    (∀ ranges e, e ∈ loadCacheData ranges → 0 < e.prefixOnes) ∧
    (∀ ranges e, e ∈ loadCacheData ranges →
      ∃ r, r ∈ ranges ∧ processRecord r = some e) ∧
    (∀ ranges r e, r ∈ ranges → processRecord r = some e →
      hasKey (loadCacheData ranges) e.prefixOnes e.prefixBase) ∧
    loadCacheData [⟨16909056, 16909311, 64512, "US", "x"⟩]
      = [⟨16909056, 64512, "US", 24, 16909056, "x"⟩] ∧
    loadCacheData [⟨0, 4294967295, 64512, "ZZ", "all"⟩] = [] := by
  refine ⟨?_, ?_, ?_, by decide, by decide⟩
  · intro ranges e he
    rcases foldl_provenance ranges [] e he with h | ⟨r, _, hp⟩
    · exact absurd h (List.not_mem_nil e)
    · exact processRecord_ones_pos hp
  · intro ranges e he
    rcases foldl_provenance ranges [] e he with h | hr
    · exact absurd h (List.not_mem_nil e)
    · exact hr
  · intro ranges r e hmem hp
    exact foldl_upserts ranges [] r e hmem hp

/-- Witness for C5: the entry stored for the range 1.2.3.0-1.2.3.255 has
positive mask length. -/
theorem loadCacheData_spec_witness :
    0 < ({ address := 16909056, asn := 64512, cc := "US", prefixOnes := 24,
           prefixBase := 16909056, description := "x" } : CacheEntry).prefixOnes :=
  loadCacheData_spec.1 [⟨16909056, 16909311, 64512, "US", "x"⟩] _ (by decide)

/-! ## Claim theorems: registry ordering -/

lemma sortedAsc_of_pairwise :
    ∀ {l : List String}, List.Pairwise (fun a b : String => a ≤ b) l → sortedAsc l := by
  intro l
  induction l with
  | nil => intro _; trivial
  | cons x xs ih =>
    intro h
    cases xs with
    | nil => trivial
    | cons y ys =>
      rcases List.pairwise_cons.mp h with ⟨hx, hrest⟩
      exact ⟨hx y (List.mem_cons_self y ys), ih hrest⟩

lemma sortNames_sortedAsc (l : List String) : sortedAsc (sortNames l) :=
  sortedAsc_of_pairwise (List.sorted_insertionSort (fun a b : String => a ≤ b) l)

lemma foldl_regStep_sortedAsc (msgs : List RegMsg) :
    ∀ st, sortedAsc st → sortedAsc (msgs.foldl regStep st) := by
  induction msgs with
  | nil => intro st h; exact h
  | cons m rest ih =>
    intro st h
    cases m with
    | add s => exact ih _ (sortNames_sortedAsc (st ++ [s]))
    | query => exact ih _ h

lemma sortNames_length (l : List String) : (sortNames l).length = l.length :=
  (List.perm_insertionSort (fun a b : String => a ≤ b) l).length_eq

lemma foldl_regStep_length (msgs : List RegMsg) :
    ∀ st, (msgs.foldl regStep st).length = st.length + msgs.countP isAdd := by
  induction msgs with
  | nil => intro st; simp
  | cons m rest ih =>
    intro st
    cases m with
    | add s =>
      simp only [List.foldl_cons, regStep, List.countP_cons]
      rw [ih (sortNames (st ++ [s])), sortNames_length]
      simp [isAdd]
      omega
    | query =>
      simp only [List.foldl_cons, regStep, List.countP_cons]
      rw [ih st]
      simp [isAdd]

/-- C6: after every message sequence processed by the registry actor, the
service list any query receives is sorted ascending by name; no add is ever
dropped or deduplicated (the list length equals the number of adds); and
adding sources named "b", "a", "c" in that order and then querying returns
them as ["a", "b", "c"]. -/
theorem manageDataSources_sorted :
    (∀ msgs, sortedAsc (regRun msgs)) ∧
    (∀ msgs, (regRun msgs).length = msgs.countP isAdd) ∧
    regRun [RegMsg.add "b", RegMsg.add "a", RegMsg.add "c", RegMsg.query]
      = ["a", "b", "c"] := by
  refine ⟨fun msgs => foldl_regStep_sortedAsc msgs [] trivial,
    fun msgs => by simpa using foldl_regStep_length msgs [], ?_⟩
  have hab : ("a" : String) ≤ "b" := by simp [String.le_iff_toList_le]; decide
  have hbc : ("b" : String) ≤ "c" := by simp [String.le_iff_toList_le]; decide
  have hba : ¬ ("b" : String) ≤ "a" := by simp [String.le_iff_toList_le]; decide
  simp [regRun, regStep, sortNames, List.insertionSort, List.orderedInsert,
    hab, hbc, hba]
  decide
